import Mathlib

/-
Verification of the rfid-reader firmware (rfid_handler.py, threading.py,
main.py, lcd_display.py).

The scan loop of RFID_Handler.read_data is embedded as a fold over the
list of (sector, block) pairs visited by the nested for-loops, producing
an explicit trace of side-effect events (LED writes, error blinks, the
success dispatch through the thread module, the delivery callback, the
crypto release and the device reset).  The thread module's start_thread
is embedded with an explicit non-reentrant lock.  The display path
(convert_hex_to_ASCII_string, check_for_nordics, LCD_Display.print,
handle_data) is embedded over lists of naturals and characters.
-/

set_option maxRecDepth 10000

/-- Indicator LED channels of LED_Controller (success, progress, error pins). -/
inductive Led where
  | success
  | progress
  | error
deriving DecidableEq, Repr

/-- Observable side effects of one call to RFID_Handler.read_data:
LED pin writes, the error blink (leds.blink(leds.error)), the dispatch of
leds.success.high through threading.start_thread, the delivery callback
invocation with its argument, mfrc522.stop_crypto1, and machine.reset. -/
inductive Event where
  | ledLow (l : Led)
  | ledHigh (l : Led)
  | blinkErr
  | dispatchSuccessHigh
  | deliver (data : List Nat)
  | stopCrypto
  | resetDevice
deriving DecidableEq, Repr

/-- Recognizer for delivery-callback events. -/
def isDeliver : Event → Bool
  | .deliver _ => true
  | _ => false

/-- Recognizer for the success dispatch through the thread module. -/
def isDispatch : Event → Bool
  | .dispatchSuccessHigh => true
  | _ => false

/-- Recognizer for the error-LED blink. -/
def isBlink : Event → Bool
  | .blinkErr => true
  | _ => false

/-- Recognizer for the device reset. -/
def isReset : Event → Bool
  | .resetDevice => true
  | _ => false

/-- The local state of the scan loop in read_data: the accumulator
`all_data` (line 81), the per-cycle flag `read_failed` (line 82), the
streak flag `fail_flag` (line 74, initialized once before the while
loop), and `halted`, which models that machine.reset() (line 120) never
returns. -/
structure ScanState where
  all_data : List Nat
  read_failed : Bool
  fail_flag : Bool
  halted : Bool
deriving DecidableEq, Repr

/-- RFID_Handler.SECTORS (rfid_handler.py line 34). -/
def SECTORS : Nat := 16

/-- The (sector, block) pairs visited by the nested loops
`for sector in range(1, SECTORS): for block in range(3)`
(rfid_handler.py lines 92-93), in visit order. -/
def scanPairs : List (Nat × Nat) :=
  (List.range' 1 (SECTORS - 1)).flatMap (fun s => (List.range 3).map (fun b => (s, b)))

/-- One iteration of the inner block loop (rfid_handler.py lines 95-120).
`reader s b` models `self.mfrc522.readSectorBlock(uid, s, b, self.keyA)`:
`some data` stands for status == OK with data not None, `none` for a
non-OK status or absent data.  On success the block data is appended and
`fail_flag` cleared; on failure `read_failed` is set and, if `fail_flag`
was clear, progress is lowered, the error LED is blinked and `fail_flag`
set.  At (sector, block) = (15, 2) the final check runs: if `read_failed`
is clear, progress is lowered, success.high is dispatched via
threading.start_thread, the callback receives `all_data`, stop_crypto1 is
called and the device resets (modelled by `halted`). -/
def blockStep (reader : Nat → Nat → Option (List Nat)) (sector block : Nat)
    (st : ScanState) : ScanState × List Event :=
  let step1 : ScanState × List Event :=
    match reader sector block with
    | some data =>
        ({ st with all_data := st.all_data ++ data, fail_flag := false }, [])
    | none =>
        if st.fail_flag then
          ({ st with read_failed := true }, [])
        else
          ({ st with read_failed := true, fail_flag := true },
           [Event.ledLow Led.progress, Event.blinkErr])
  if sector = 15 ∧ block = 2 then
    if step1.1.read_failed then step1
    else
      ({ step1.1 with halted := true },
       step1.2 ++ [Event.ledLow Led.progress, Event.dispatchSuccessHigh,
                   Event.deliver step1.1.all_data, Event.stopCrypto,
                   Event.resetDevice])
  else step1

/-- Folds blockStep over a list of (sector, block) pairs, collecting the
event trace.  Once `halted` is set (the device reset has been issued),
nothing further executes. -/
def runPairs (reader : Nat → Nat → Option (List Nat)) :
    List (Nat × Nat) → ScanState → ScanState × List Event
  | [], st => (st, [])
  | p :: rest, st =>
    if st.halted then (st, [])
    else
      let r1 := blockStep reader p.1 p.2 st
      let r2 := runPairs reader rest r1.1
      (r2.1, r1.2 ++ r2.2)

/-- The fresh scan-session state at the first tag-present cycle after
read_data is entered: empty accumulator, both flags clear, not halted. -/
def scanState0 : ScanState :=
  { all_data := [], read_failed := false, fail_flag := false, halted := false }

/-- The event trace of one tag-present scan pass entered with a fresh
session (sector/block loops of read_data, lines 92-120). -/
def scanEvents (reader : Nat → Nat → Option (List Nat)) : List Event :=
  (runPairs reader scanPairs scanState0).2

/-- The final scan state of one tag-present scan pass entered with a
fresh session. -/
def scanFinal (reader : Nat → Nat → Option (List Nat)) : ScanState :=
  (runPairs reader scanPairs scanState0).1

/-- The bytes contributed by a list of (sector, block) pairs: each
successful read contributes its payload, a failed read contributes
nothing (all_data is only extended in the OK branch). -/
def dataOf (reader : Nat → Nat → Option (List Nat)) (pairs : List (Nat × Nat)) : List Nat :=
  (pairs.map (fun p => (reader p.1 p.2).getD [])).flatten

/-- The success/failure outcome (true = OK with data) of each pair. -/
def oksOf (reader : Nat → Nat → Option (List Nat)) (pairs : List (Nat × Nat)) : List Bool :=
  pairs.map (fun p => (reader p.1 p.2).isSome)

/-- Whether any read in the pair list fails. -/
def anyFailOf (reader : Nat → Nat → Option (List Nat)) (pairs : List (Nat × Nat)) : Bool :=
  (oksOf reader pairs).any (fun ok => !ok)

/-- The value of fail_flag after processing a run of outcomes starting
from a given flag: a success clears it, a failure sets it. -/
def runFlag (flag : Bool) : List Bool → Bool
  | [] => flag
  | ok :: rest => runFlag (!ok) rest

/-- The events emitted by the failure-streak logic alone over a run of
outcomes: the first failure of a streak (flag clear) emits a progress-low
and an error blink; later failures of the streak emit nothing; successes
emit nothing and clear the flag. -/
def streakEvents (flag : Bool) : List Bool → List Event
  | [] => []
  | ok :: rest =>
    if ok then streakEvents false rest
    else (if flag then [] else [Event.ledLow Led.progress, Event.blinkErr]) ++
         streakEvents true rest

/-- The number of maximal failure runs in a run of outcomes, counting a
leading failure run only when the incoming flag is clear. -/
def streakStarts (flag : Bool) : List Bool → Nat
  | [] => 0
  | ok :: rest =>
    if ok then streakStarts false rest
    else (if flag then 0 else 1) + streakStarts true rest

/-- The outer while loop of read_data (lines 77-125), one entry per poll
cycle: `none` models a request with non-OK status (no tag present);
`some reader` models a tag answering and being selected, after which
progress goes high (line 88) and the sector/block loops run.  The flag
`fail_flag` is threaded across cycles (it is initialized only once, at
line 74), while all_data and read_failed are fresh each cycle (lines
81-82).  After a reset nothing further executes. -/
def runCycles : List (Option (Nat → Nat → Option (List Nat))) → Bool → Bool → List Event
  | [], _, _ => []
  | c :: rest, fail_flag, halted =>
    if halted then []
    else
      match c with
      | none => runCycles rest fail_flag halted
      | some reader =>
        let r := runPairs reader scanPairs
          { all_data := [], read_failed := false, fail_flag := fail_flag, halted := false }
        (Event.ledHigh Led.progress :: r.2) ++ runCycles rest r.1.fail_flag r.1.halted

/-- RFID_Handler.read_data (lines 58-125): clears the three LEDs, sets
fail_flag to False once, then runs the poll cycles. -/
def read_data (cycles : List (Option (Nat → Nat → Option (List Nat)))) : List Event :=
  [Event.ledLow Led.success, Event.ledLow Led.progress, Event.ledLow Led.error] ++
    runCycles cycles false false

/-- The observable state of the thread module (threading.py): the
module-level slot `current_thread` and the list of task identifiers ever
handed to _thread.start_new_thread (no operation of the module joins,
cancels or removes a started task). -/
structure ExecState where
  slot : Option Nat
  started : List Nat
deriving DecidableEq, Repr

/-- threading.start_thread (lines 23-45).  `busy` lists, per attempt,
whether _thread.start_new_thread raises OSError (core 1 busy); an
exhausted list means the start succeeds.  `lockHeld` records whether
thread_lock is already held by this same call chain; `_thread` locks are
not reentrant, so acquiring a lock the current thread already holds
blocks forever, which the embedding reports as `none` (no final state).
Inside the lock the previous handle, if any, is dropped (set to None,
neither joined nor cancelled); on OSError the code sleeps one second and
retries recursively without releasing the lock.  The Nat result counts
the backoff sleeps performed.  On success the new task id is stored in
the slot and recorded as started. -/
def start_thread : List Bool → Bool → ExecState → Nat → Nat × Option ExecState
  | _, true, _, _ => (0, none)
  | busy, false, st, newId =>
    let st1 : ExecState := { st with slot := none }
    match busy with
    | true :: rest =>
      let r := start_thread rest true st1 newId
      (r.1 + 1, r.2)
    | _ => (0, some { st1 with slot := some newId, started := st1.started ++ [newId] })

/-- threading.stop_thread (lines 47-52): clears the slot under the lock;
the running task, if any, is untouched. -/
def stop_thread (st : ExecState) : ExecState :=
  { st with slot := none }

/-- main.convert_hex_to_ASCII_string (main.py lines 25-35):
join of chr(value) for value in data if value != 0. -/
def convert_hex_to_ASCII_string : List Nat → List Char
  | [] => []
  | v :: rest =>
    if v ≠ 0 then Char.ofNat v :: convert_hex_to_ASCII_string rest
    else convert_hex_to_ASCII_string rest

/-- LCD_Display.check_for_nordics (lcd_display.py lines 147-172):
per-character accumulation replacing the six Nordic letters. -/
def check_for_nordics : List Char → List Char
  | [] => []
  | c :: rest =>
    (if c = 'Ä' then ['A']
     else if c = 'ä' then ['a']
     else if c = 'Ö' then ['O']
     else if c = 'ö' then ['o']
     else if c = 'Å' then ['A']
     else if c = 'å' then ['a']
     else [c]) ++ check_for_nordics rest

/-- The per-character Nordic folding map as the specification states it:
each Ä becomes A, ä becomes a, Ö becomes O, ö becomes o, Å becomes A,
å becomes a, every other character is unchanged. -/
def nordic_fold_spec (c : Char) : Char :=
  if c = 'Ä' then 'A'
  else if c = 'ä' then 'a'
  else if c = 'Ö' then 'O'
  else if c = 'ö' then 'o'
  else if c = 'Å' then 'A'
  else if c = 'å' then 'a'
  else c

/-- A handoff from LCD_Display.print to the excluded formatting
collaborator: either scroll_content(text, count) or lcd_string(text). -/
inductive DisplayCall where
  | scroll (text : List Char) (count : Nat)
  | line (text : List Char)
deriving DecidableEq, Repr

/-- The text carried by a display handoff. -/
def DisplayCall.text : DisplayCall → List Char
  | .scroll t _ => t
  | .line t => t

/-- LCD_Display.print (lcd_display.py lines 202-218): folds Nordic
characters, then hands the folded content once to scroll_content when it
is longer than 16 characters, otherwise once to lcd_string. -/
def lcd_print (content : List Char) (scroll_count : Nat) : List DisplayCall :=
  let folded := check_for_nordics content
  if 16 < folded.length then [DisplayCall.scroll folded scroll_count]
  else [DisplayCall.line folded]

/-- main.handle_data (main.py lines 37-58): converts the delivered bytes
to ASCII (dropping zero bytes) and prints them once with the default
scroll count of 1. -/
def handle_data (data : List Nat) : List DisplayCall :=
  lcd_print (convert_hex_to_ASCII_string data) 1

/-- A reader whose every block read succeeds with payload [65]. -/
def readerAll : Nat → Nat → Option (List Nat) := fun _ _ => some [65]

/-- A reader failing exactly at (sector 3, block 0). -/
def readerFail30 : Nat → Nat → Option (List Nat) :=
  fun s b => if s = 3 ∧ b = 0 then none else some [7]

/-- A reader failing exactly at (sector 4, block 1), the eleventh visited
block (global block index 10), with every later read succeeding. -/
def readerFail10 : Nat → Nat → Option (List Nat) :=
  fun s b => if s = 4 ∧ b = 1 then none else some [7]

/-- A reader failing exactly at the final pair (sector 15, block 2): a
failure streak at the very end of the scan. -/
def readerTailFail : Nat → Nat → Option (List Nat) :=
  fun s b => if s = 15 ∧ b = 2 then none else some [7]

/-- A reader failing exactly at the first pair (sector 1, block 0): a
failure at the very start of the scan. -/
def readerHeadFail : Nat → Nat → Option (List Nat) :=
  fun s b => if s = 1 ∧ b = 0 then none else some [7]

/-- The scan pairs strictly before the final (15, 2) pair. -/
def scanInit : List (Nat × Nat) := scanPairs.dropLast

theorem check_for_nordics_eq_map (s : List Char) :
    check_for_nordics s = s.map nordic_fold_spec := by
  induction s with
  | nil => rfl
  | cons c rest ih =>
    simp only [check_for_nordics, nordic_fold_spec, List.map]
    split_ifs <;> simp [ih]

/-- C3 counterexample: the nested loops visit 45 (sector, block) pairs,
not 48 as the claim states. -/
theorem scanPairs_count_ne_48 : scanPairs.length = 45 ∧ scanPairs.length ≠ 48 := by
  decide

/-- C3 (amended): every full scan pass performs exactly 45 block-read
iterations, one per (sector, block) pair with sector in 1..15 and block
in 0..2, sector 0 skipped. -/
theorem scanPairs_enumeration :
    scanPairs.length = 45 ∧ scanPairs.Nodup ∧
      scanPairs.all (fun p => decide (1 ≤ p.1 ∧ p.1 ≤ 15 ∧ p.2 ≤ 2)) = true := by
  decide

/-- C4: with core 1 busy on the first two start attempts and available on
the third, start_thread performs a single backoff sleep and then blocks
forever re-acquiring the non-reentrant thread_lock it already holds
(the recursive retry runs inside the with-block); it never succeeds and
no handle is ever stored, contrary to the documented retry behavior. -/
theorem start_thread_busy_deadlocks :
    start_thread [true, true, false] false { slot := none, started := [] } 7 = (1, none) := by
  rfl

/-- C7: starting task A and then task B (both starts succeeding) leaves
the slot holding exactly B's handle; A's task remains among the started
tasks, and the module performs no join or cancel — the resulting state is
fully determined as shown. -/
theorem start_twice_replaces_slot (st : ExecState) (A B : Nat) :
    (start_thread [] false st A).2.bind (fun st1 => (start_thread [] false st1 B).2) =
      some { slot := some B, started := st.started ++ [A, B] } := by
  simp [start_thread]

/-- C9: for every delivered byte list, handle_data hands text to the
display collaborator exactly once, and that text is the ASCII conversion
of the input with each character folded by the Nordic table (Ä to A, ä to
a, Ö to O, ö to o, Å to A, å to a, all else unchanged). -/
theorem handle_data_folds_nordics_once (data : List Nat) :
    (handle_data data).length = 1 ∧
      (handle_data data).map DisplayCall.text =
        [(convert_hex_to_ASCII_string data).map nordic_fold_spec] := by
  unfold handle_data lcd_print
  simp only [check_for_nordics_eq_map]
  split <;> simp [DisplayCall.text]

/-- C10: convert_hex_to_ASCII_string returns the in-order concatenation
of chr(v) for the nonzero entries v, so its length is the number of
nonzero entries. -/
theorem convert_hex_drops_zeros (data : List Nat) :
    convert_hex_to_ASCII_string data = (data.filter (fun v => v != 0)).map Char.ofNat ∧
      (convert_hex_to_ASCII_string data).length = data.countP (fun v => v != 0) := by
  induction data with
  | nil => exact ⟨rfl, rfl⟩
  | cons v rest ih =>
    by_cases hv : v = 0
    · subst hv
      refine ⟨?_, ?_⟩
      · simpa [convert_hex_to_ASCII_string, List.filter_cons] using ih.1
      · simpa [convert_hex_to_ASCII_string, List.countP_cons] using ih.2
    · refine ⟨?_, ?_⟩
      · simp [convert_hex_to_ASCII_string, hv, List.filter_cons, ih.1]
      · simp [convert_hex_to_ASCII_string, hv, List.countP_cons, ih.2]

theorem scanPairs_split : scanPairs = scanInit ++ [(15, 2)] := by decide

theorem final_not_mem_scanInit : (15, 2) ∉ scanInit := by decide

theorem final_mem_scanPairs : (15, 2) ∈ scanPairs := by decide

theorem runPairs_halted (reader : Nat → Nat → Option (List Nat))
    (l : List (Nat × Nat)) (st : ScanState) (h : st.halted = true) :
    runPairs reader l st = (st, []) := by
  cases l <;> simp [runPairs, h]

theorem runPairs_append (reader : Nat → Nat → Option (List Nat))
    (xs ys : List (Nat × Nat)) (st : ScanState) :
    runPairs reader (xs ++ ys) st =
      ((runPairs reader ys (runPairs reader xs st).1).1,
       (runPairs reader xs st).2 ++ (runPairs reader ys (runPairs reader xs st).1).2) := by
  induction xs generalizing st with
  | nil => simp [runPairs]
  | cons p rest ih =>
    by_cases hh : st.halted = true
    · simp [runPairs, hh, runPairs_halted reader ys st hh]
    · simp only [Bool.not_eq_true] at hh
      simp [runPairs, hh, ih, List.append_assoc]

theorem oksOf_append (reader : Nat → Nat → Option (List Nat)) (xs ys : List (Nat × Nat)) :
    oksOf reader (xs ++ ys) = oksOf reader xs ++ oksOf reader ys := by
  simp [oksOf]

theorem dataOf_append (reader : Nat → Nat → Option (List Nat)) (xs ys : List (Nat × Nat)) :
    dataOf reader (xs ++ ys) = dataOf reader xs ++ dataOf reader ys := by
  simp [dataOf]

theorem anyFailOf_append (reader : Nat → Nat → Option (List Nat)) (xs ys : List (Nat × Nat)) :
    anyFailOf reader (xs ++ ys) = (anyFailOf reader xs || anyFailOf reader ys) := by
  simp [anyFailOf, oksOf_append]

theorem runFlag_append (f : Bool) (l1 l2 : List Bool) :
    runFlag f (l1 ++ l2) = runFlag (runFlag f l1) l2 := by
  induction l1 generalizing f with
  | nil => rfl
  | cons ok rest ih => simp [runFlag, ih]

theorem streakEvents_append (f : Bool) (l1 l2 : List Bool) :
    streakEvents f (l1 ++ l2) = streakEvents f l1 ++ streakEvents (runFlag f l1) l2 := by
  induction l1 generalizing f with
  | nil => rfl
  | cons ok rest ih =>
    cases ok <;> simp [streakEvents, runFlag, ih]

theorem streakStarts_append (f : Bool) (l1 l2 : List Bool) :
    streakStarts f (l1 ++ l2) = streakStarts f l1 + streakStarts (runFlag f l1) l2 := by
  induction l1 generalizing f with
  | nil => simp [streakStarts, runFlag]
  | cons ok rest ih =>
    cases ok <;> simp [streakStarts, runFlag, ih, Nat.add_assoc]

theorem streakEvents_countP_deliver (f : Bool) (l : List Bool) :
    (streakEvents f l).countP isDeliver = 0 := by
  induction l generalizing f with
  | nil => rfl
  | cons ok rest ih =>
    cases ok <;> cases f <;> simp [streakEvents, List.countP_cons, isDeliver, ih]

theorem streakEvents_countP_dispatch (f : Bool) (l : List Bool) :
    (streakEvents f l).countP isDispatch = 0 := by
  induction l generalizing f with
  | nil => rfl
  | cons ok rest ih =>
    cases ok <;> cases f <;> simp [streakEvents, List.countP_cons, isDispatch, ih]

theorem streakEvents_countP_blink (f : Bool) (l : List Bool) :
    (streakEvents f l).countP isBlink = streakStarts f l := by
  induction l generalizing f with
  | nil => rfl
  | cons ok rest ih =>
    cases ok <;> cases f <;>
      simp [streakEvents, streakStarts, List.countP_cons, isBlink, ih, Nat.add_comm]

theorem streakEvents_all_ok (f : Bool) (l : List Bool)
    (h : ∀ ok ∈ l, ok = true) : streakEvents f l = [] := by
  induction l generalizing f with
  | nil => rfl
  | cons ok rest ih =>
    have hok := h ok (List.mem_cons_self ok rest)
    subst hok
    simpa [streakEvents] using ih false (fun x hx => h x (List.mem_cons_of_mem _ hx))

theorem streakStarts_all_ok (f : Bool) (l : List Bool)
    (h : ∀ ok ∈ l, ok = true) : streakStarts f l = 0 := by
  induction l generalizing f with
  | nil => rfl
  | cons ok rest ih =>
    have hok := h ok (List.mem_cons_self ok rest)
    subst hok
    simpa [streakStarts] using ih false (fun x hx => h x (List.mem_cons_of_mem _ hx))

theorem anyFailOf_eq_true_iff (reader : Nat → Nat → Option (List Nat))
    (pairs : List (Nat × Nat)) :
    anyFailOf reader pairs = true ↔ ∃ p ∈ pairs, reader p.1 p.2 = none := by
  simp [anyFailOf, oksOf, List.any_map, List.any_eq_true, Function.comp,
    Option.isNone_iff_eq_none]

theorem oksOf_all_ok (reader : Nat → Nat → Option (List Nat))
    (pairs : List (Nat × Nat)) (h : ∀ p ∈ pairs, (reader p.1 p.2).isSome = true) :
    ∀ ok ∈ oksOf reader pairs, ok = true := by
  intro ok hok
  simp only [oksOf, List.mem_map] at hok
  obtain ⟨p, hp, rfl⟩ := hok
  exact h p hp

theorem blockStep_some (reader : Nat → Nat → Option (List Nat)) (s b : Nat)
    (st : ScanState) (d : List Nat) (hr : reader s b = some d)
    (hne : ¬(s = 15 ∧ b = 2)) :
    blockStep reader s b st =
      ({ st with all_data := st.all_data ++ d, fail_flag := false }, []) := by
  simp [blockStep, hr, hne]

theorem blockStep_none_streak (reader : Nat → Nat → Option (List Nat)) (s b : Nat)
    (st : ScanState) (hr : reader s b = none) (hf : st.fail_flag = true)
    (hne : ¬(s = 15 ∧ b = 2)) :
    blockStep reader s b st = ({ st with read_failed := true }, []) := by
  simp [blockStep, hr, hf, hne]

theorem blockStep_none_fresh (reader : Nat → Nat → Option (List Nat)) (s b : Nat)
    (st : ScanState) (hr : reader s b = none) (hf : st.fail_flag = false)
    (hne : ¬(s = 15 ∧ b = 2)) :
    blockStep reader s b st =
      ({ st with read_failed := true, fail_flag := true },
       [Event.ledLow Led.progress, Event.blinkErr]) := by
  simp [blockStep, hr, hf, hne]

theorem blockStep_final_some_clean (reader : Nat → Nat → Option (List Nat))
    (st : ScanState) (d : List Nat) (hr : reader 15 2 = some d)
    (hrf : st.read_failed = false) :
    blockStep reader 15 2 st =
      ({ st with all_data := st.all_data ++ d, fail_flag := false, halted := true },
       [Event.ledLow Led.progress, Event.dispatchSuccessHigh,
        Event.deliver (st.all_data ++ d), Event.stopCrypto, Event.resetDevice]) := by
  simp [blockStep, hr, hrf]

theorem blockStep_final_some_dirty (reader : Nat → Nat → Option (List Nat))
    (st : ScanState) (d : List Nat) (hr : reader 15 2 = some d)
    (hrf : st.read_failed = true) :
    blockStep reader 15 2 st =
      ({ st with all_data := st.all_data ++ d, fail_flag := false }, []) := by
  simp [blockStep, hr, hrf]

theorem blockStep_final_none_streak (reader : Nat → Nat → Option (List Nat))
    (st : ScanState) (hr : reader 15 2 = none) (hf : st.fail_flag = true) :
    blockStep reader 15 2 st = ({ st with read_failed := true }, []) := by
  simp [blockStep, hr, hf]

theorem blockStep_final_none_fresh (reader : Nat → Nat → Option (List Nat))
    (st : ScanState) (hr : reader 15 2 = none) (hf : st.fail_flag = false) :
    blockStep reader 15 2 st =
      ({ st with read_failed := true, fail_flag := true },
       [Event.ledLow Led.progress, Event.blinkErr]) := by
  simp [blockStep, hr, hf]

theorem runPairs_no_final (reader : Nat → Nat → Option (List Nat))
    (pairs : List (Nat × Nat)) (st : ScanState)
    (h15 : (15, 2) ∉ pairs) (hh : st.halted = false) :
    runPairs reader pairs st =
      ({ all_data := st.all_data ++ dataOf reader pairs,
         read_failed := st.read_failed || anyFailOf reader pairs,
         fail_flag := runFlag st.fail_flag (oksOf reader pairs),
         halted := false },
       streakEvents st.fail_flag (oksOf reader pairs)) := by
  induction pairs generalizing st with
  | nil =>
    cases st with
    | mk a rf ff ha =>
      simp only [Bool.or_false] at *
      subst hh
      simp [runPairs, dataOf, anyFailOf, oksOf, runFlag, streakEvents]
  | cons p rest ih =>
    have hp : p ≠ (15, 2) := fun he => h15 (he ▸ List.mem_cons_self p rest)
    have h15' : (15, 2) ∉ rest := fun hm => h15 (List.mem_cons_of_mem _ hm)
    have hp2 : ¬(p.1 = 15 ∧ p.2 = 2) := by
      rintro ⟨h1, h2⟩
      exact hp (Prod.ext h1 h2)
    have hunf : runPairs reader (p :: rest) st =
        ((runPairs reader rest (blockStep reader p.1 p.2 st).1).1,
         (blockStep reader p.1 p.2 st).2 ++
           (runPairs reader rest (blockStep reader p.1 p.2 st).1).2) := by
      simp [runPairs, hh]
    cases hr : reader p.1 p.2 with
    | some d =>
      rw [hunf, blockStep_some reader p.1 p.2 st d hr hp2]
      rw [ih ({ st with all_data := st.all_data ++ d, fail_flag := false }) h15' hh]
      simp [dataOf, oksOf, anyFailOf, runFlag, streakEvents, hr, List.append_assoc]
    | none =>
      cases hf : st.fail_flag with
      | true =>
        rw [hunf, blockStep_none_streak reader p.1 p.2 st hr hf hp2]
        rw [ih ({ st with read_failed := true }) h15' hh]
        simp [dataOf, oksOf, anyFailOf, runFlag, streakEvents, hr, hf]
      | false =>
        rw [hunf, blockStep_none_fresh reader p.1 p.2 st hr hf hp2]
        rw [ih ({ st with read_failed := true, fail_flag := true }) h15' hh]
        simp [dataOf, oksOf, anyFailOf, runFlag, streakEvents, hr, hf]


theorem runPairs_single (reader : Nat → Nat → Option (List Nat)) (p : Nat × Nat)
    (st : ScanState) (hh : st.halted = false) :
    runPairs reader [p] st = blockStep reader p.1 p.2 st := by
  simp [runPairs, hh]

theorem dataOf_final_some (reader : Nat → Nat → Option (List Nat)) (d : List Nat)
    (hr : reader 15 2 = some d) :
    dataOf reader (scanInit ++ [(15, 2)]) = dataOf reader scanInit ++ d := by
  rw [dataOf_append]
  simp [dataOf, hr]

theorem dataOf_final_none (reader : Nat → Nat → Option (List Nat))
    (hr : reader 15 2 = none) :
    dataOf reader (scanInit ++ [(15, 2)]) = dataOf reader scanInit := by
  rw [dataOf_append]
  simp [dataOf, hr]

theorem scan_success (reader : Nat → Nat → Option (List Nat)) (flag : Bool)
    (h : ∀ p ∈ scanPairs, (reader p.1 p.2).isSome = true) :
    runPairs reader scanPairs
        { all_data := [], read_failed := false, fail_flag := flag, halted := false } =
      ({ all_data := dataOf reader scanPairs, read_failed := false,
         fail_flag := false, halted := true },
       [Event.ledLow Led.progress, Event.dispatchSuccessHigh,
        Event.deliver (dataOf reader scanPairs), Event.stopCrypto,
        Event.resetDevice]) := by
  obtain ⟨d, hd⟩ := Option.isSome_iff_exists.mp (h (15, 2) final_mem_scanPairs)
  have hinit : ∀ p ∈ scanInit, (reader p.1 p.2).isSome = true := by
    intro p hp
    exact h p (by rw [scanPairs_split]; exact List.mem_append_left _ hp)
  have hfail : anyFailOf reader scanInit = false := by
    rw [Bool.eq_false_iff]
    intro hcontra
    obtain ⟨p, hp, hpnone⟩ := (anyFailOf_eq_true_iff reader scanInit).mp hcontra
    have := hinit p hp
    simp [hpnone] at this
  rw [scanPairs_split, runPairs_append,
    runPairs_no_final reader scanInit _ final_not_mem_scanInit rfl]
  dsimp only
  rw [hfail, streakEvents_all_ok flag _ (oksOf_all_ok reader scanInit hinit),
    runPairs_single reader (15, 2) _ rfl]
  dsimp only
  rw [blockStep_final_some_clean reader _ d hd rfl]
  rw [dataOf_final_some reader d hd]
  simp

theorem scan_fail (reader : Nat → Nat → Option (List Nat)) (flag : Bool)
    (h : ∃ p ∈ scanPairs, reader p.1 p.2 = none) :
    runPairs reader scanPairs
        { all_data := [], read_failed := false, fail_flag := flag, halted := false } =
      ({ all_data := dataOf reader scanPairs, read_failed := true,
         fail_flag := runFlag flag (oksOf reader scanPairs), halted := false },
       streakEvents flag (oksOf reader scanPairs)) := by
  rw [scanPairs_split, runPairs_append,
    runPairs_no_final reader scanInit _ final_not_mem_scanInit rfl]
  dsimp only
  rw [runPairs_single reader (15, 2) _ rfl]
  dsimp only
  have hoks : oksOf reader (scanInit ++ [(15, 2)]) =
      oksOf reader scanInit ++ [(reader 15 2).isSome] := by
    rw [oksOf_append]; rfl
  cases hr : reader 15 2 with
  | some d =>
    have hfail1 : anyFailOf reader scanInit = true := by
      obtain ⟨p, hp, hpnone⟩ := h
      rw [scanPairs_split] at hp
      rcases List.mem_append.mp hp with hp1 | hp1
      · exact (anyFailOf_eq_true_iff reader scanInit).mpr ⟨p, hp1, hpnone⟩
      · exfalso
        have hpe : p = (15, 2) := by simpa using hp1
        rw [hpe] at hpnone
        rw [hpnone] at hr
        cases hr
    rw [hfail1]
    rw [blockStep_final_some_dirty reader _ d hr rfl]
    dsimp only
    rw [dataOf_final_some reader d hr, hoks, hr]
    rw [runFlag_append, streakEvents_append]
    simp [runFlag, streakEvents]
  | none =>
    rw [dataOf_final_none reader hr, hoks, hr]
    rw [runFlag_append, streakEvents_append]
    cases hg : runFlag flag (oksOf reader scanInit) with
    | true =>
      rw [blockStep_final_none_streak reader _ hr rfl]
      dsimp only
      simp [runFlag, streakEvents]
    | false =>
      rw [blockStep_final_none_fresh reader _ hr rfl]
      dsimp only
      simp [runFlag, streakEvents]

theorem runCycles_blinks (cycles : List (Option (Nat → Nat → Option (List Nat))))
    (flag : Bool)
    (h : ∀ r ∈ cycles.filterMap id, ∃ p ∈ scanPairs, r p.1 p.2 = none) :
    (runCycles cycles flag false).countP isBlink =
      streakStarts flag ((cycles.filterMap id).flatMap (fun r => oksOf r scanPairs)) := by
  induction cycles generalizing flag with
  | nil => simp [runCycles, streakStarts]
  | cons c rest ih =>
    cases c with
    | none =>
      have h' : ∀ r ∈ rest.filterMap id, ∃ p ∈ scanPairs, r p.1 p.2 = none := by
        intro r hr
        exact h r (by simpa using hr)
      simp only [runCycles, List.filterMap_cons, id_eq]
      exact ih flag h'
    | some r =>
      have hrfail : ∃ p ∈ scanPairs, r p.1 p.2 = none := h r (by simp)
      have h' : ∀ q ∈ rest.filterMap id, ∃ p ∈ scanPairs, q p.1 p.2 = none := by
        intro q hq
        apply h q
        simp only [List.filterMap_cons, id_eq]
        exact List.mem_cons_of_mem _ hq
      simp only [runCycles]
      rw [scan_fail r flag hrfail]
      simp only [List.filterMap_cons, id_eq, List.flatMap_cons, streakStarts_append]
      rw [← ih (runFlag flag (oksOf r scanPairs)) h']
      simp [List.countP_append, List.countP_cons, streakEvents_countP_blink, isBlink]

/-- C1: for every scan in which at least one block read fails
(readSectorBlock returns non-OK or absent data), the delivery callback is
never invoked during that scan, because the read_failed flag set by the
failure still holds at the final (sector 15, block 2) check. -/
theorem failed_scan_never_delivers (reader : Nat → Nat → Option (List Nat))
    (h : ∃ p ∈ scanPairs, reader p.1 p.2 = none) :
    (scanEvents reader).countP isDeliver = 0 ∧
      (scanFinal reader).read_failed = true := by
  have hs := scan_fail reader false h
  constructor
  · simp only [scanEvents, scanState0]
    rw [hs]
    exact streakEvents_countP_deliver false _
  · simp only [scanFinal, scanState0]
    rw [hs]

theorem failed_scan_never_delivers_witness :
    (∃ p ∈ scanPairs, readerFail30 p.1 p.2 = none) ∧
      ((scanEvents readerFail30).countP isDeliver = 0 ∧
        (scanFinal readerFail30).read_failed = true) :=
  ⟨by decide, failed_scan_never_delivers readerFail30 (by decide)⟩

/-- C2 counterexample: a scan failing only at the eleventh visited block
(sector 4, block 1; global block index 10) with every later read
succeeding does not declare success: no success status is dispatched and
the delivery callback is not invoked, contrary to the claim. -/
theorem midscan_failure_blocks_success_cex :
    readerFail10 4 1 = none ∧
      scanPairs.getD 10 (0, 0) = (4, 1) ∧
      scanPairs.countP (fun p => (readerFail10 p.1 p.2).isNone) = 1 ∧
      (scanEvents readerFail10).countP isDispatch = 0 ∧
      (scanEvents readerFail10).countP isDeliver = 0 := by
  decide

/-- C2 (amended): the success condition is evaluated on the accumulated
read_failed flag, which is set by any failure during the scan and never
cleared before the final (15, 2) check, so a scan with any earlier failed
block read never dispatches the success indication, even when all
subsequent reads succeed. -/
theorem any_failure_blocks_success_dispatch (reader : Nat → Nat → Option (List Nat))
    (h : ∃ p ∈ scanPairs, reader p.1 p.2 = none) :
    (scanEvents reader).countP isDispatch = 0 := by
  have hs := scan_fail reader false h
  simp only [scanEvents, scanState0]
  rw [hs]
  exact streakEvents_countP_dispatch false _

theorem any_failure_blocks_success_dispatch_witness :
    (∃ p ∈ scanPairs, readerFail10 p.1 p.2 = none) ∧
      (scanEvents readerFail10).countP isDispatch = 0 :=
  ⟨by decide, any_failure_blocks_success_dispatch readerFail10 (by decide)⟩

/-- C5: within one scan entered with a clear streak flag, the number of
error-LED blinks equals the number of maximal runs of consecutive failed
block reads: the flag is set on the first failure of a run, suppresses
further blinks until a success clears it, and a later independent failure
after a success blinks again. -/
theorem blink_count_eq_streak_starts (reader : Nat → Nat → Option (List Nat)) :
    (scanEvents reader).countP isBlink =
      streakStarts false (oksOf reader scanPairs) := by
  by_cases h : ∃ p ∈ scanPairs, reader p.1 p.2 = none
  · simp only [scanEvents, scanState0]
    rw [scan_fail reader false h]
    exact streakEvents_countP_blink false _
  · push_neg at h
    have h' : ∀ p ∈ scanPairs, (reader p.1 p.2).isSome = true := by
      intro p hp
      cases hrp : reader p.1 p.2 with
      | none => exact absurd hrp (h p hp)
      | some d => rfl
    simp only [scanEvents, scanState0]
    rw [scan_success reader false h']
    rw [streakStarts_all_ok false _ (oksOf_all_ok reader scanPairs h')]
    simp [List.countP_cons, isBlink]

/-- C8: on a fully successful scan the trace of the final check is
exactly: progress LED low, one success dispatch through start_thread, one
delivery of the accumulated bytes, the crypto release, then the device
restart; the delivery and the success dispatch each occur exactly once
and strictly before the restart. -/
theorem success_scan_trace (reader : Nat → Nat → Option (List Nat))
    (h : ∀ p ∈ scanPairs, (reader p.1 p.2).isSome = true) :
    scanEvents reader =
      [Event.ledLow Led.progress, Event.dispatchSuccessHigh,
       Event.deliver (dataOf reader scanPairs), Event.stopCrypto,
       Event.resetDevice] ∧
      (scanEvents reader).countP isDeliver = 1 ∧
      (scanEvents reader).countP isDispatch = 1 ∧
      (scanEvents reader).countP isReset = 1 ∧
      (scanEvents reader).findIdx isDispatch < (scanEvents reader).findIdx isReset ∧
      (scanEvents reader).findIdx isDeliver < (scanEvents reader).findIdx isReset := by
  have he : scanEvents reader =
      [Event.ledLow Led.progress, Event.dispatchSuccessHigh,
       Event.deliver (dataOf reader scanPairs), Event.stopCrypto,
       Event.resetDevice] := by
    simp only [scanEvents, scanState0]
    rw [scan_success reader false h]
  refine ⟨he, ?_, ?_, ?_, ?_, ?_⟩ <;> rw [he] <;>
    simp [List.countP_cons, List.findIdx_cons, isDeliver, isDispatch, isReset]

theorem success_scan_trace_witness :
    (∀ p ∈ scanPairs, (readerAll p.1 p.2).isSome = true) ∧
      (scanEvents readerAll =
        [Event.ledLow Led.progress, Event.dispatchSuccessHigh,
         Event.deliver (dataOf readerAll scanPairs), Event.stopCrypto,
         Event.resetDevice] ∧
        (scanEvents readerAll).countP isDeliver = 1 ∧
        (scanEvents readerAll).countP isDispatch = 1 ∧
        (scanEvents readerAll).countP isReset = 1 ∧
        (scanEvents readerAll).findIdx isDispatch < (scanEvents readerAll).findIdx isReset ∧
        (scanEvents readerAll).findIdx isDeliver < (scanEvents readerAll).findIdx isReset) :=
  ⟨by decide, success_scan_trace readerAll (by decide)⟩

/-- C6 counterexample: with a first tag-present cycle failing only at its
final block (a failure streak at the end of the scan, one blink, leaving
fail_flag set) followed by a second cycle failing at its first block, the
whole read_data run records one error indication in total, not the two
separate indications the claim requires. -/
theorem cross_cycle_streak_single_blink_cex :
    (scanFinal readerTailFail).fail_flag = true ∧
      (scanEvents readerTailFail).countP isBlink = 1 ∧
      (read_data [some readerTailFail, some readerHeadFail]).countP isBlink = 1 := by
  decide

/-- C6 (amended): all_data and read_failed are created fresh at each
tag-present cycle, but the failure-streak flag is initialized once before
the polling loop and carries across cycles: over any run of cycles that
each contain a failed read, the number of error indications equals the
number of maximal failure runs in the concatenation of all cycles' read
outcomes, so a streak spanning the end of one scan and the start of the
next is signalled once, not twice. -/
theorem fail_flag_carries_across_cycles
    (cycles : List (Option (Nat → Nat → Option (List Nat))))
    (h : ∀ r ∈ cycles.filterMap id, ∃ p ∈ scanPairs, r p.1 p.2 = none) :
    (read_data cycles).countP isBlink =
      streakStarts false ((cycles.filterMap id).flatMap (fun r => oksOf r scanPairs)) := by
  simp only [read_data, List.countP_append, List.countP_cons, isBlink,
    List.countP_nil]
  rw [runCycles_blinks cycles false h]
  simp

theorem fail_flag_carries_across_cycles_witness :
    (∀ r ∈ ([some readerTailFail, some readerHeadFail] :
        List (Option (Nat → Nat → Option (List Nat)))).filterMap id,
        ∃ p ∈ scanPairs, r p.1 p.2 = none) ∧
      (read_data [some readerTailFail, some readerHeadFail]).countP isBlink =
        streakStarts false
          ((([some readerTailFail, some readerHeadFail] :
            List (Option (Nat → Nat → Option (List Nat)))).filterMap id).flatMap
            (fun r => oksOf r scanPairs)) := by
  have hproof : ∀ r ∈ ([some readerTailFail, some readerHeadFail] :
      List (Option (Nat → Nat → Option (List Nat)))).filterMap id,
      ∃ p ∈ scanPairs, r p.1 p.2 = none := by
    intro r hr
    simp only [List.filterMap_cons, id_eq, List.filterMap_nil] at hr
    rcases List.mem_cons.mp hr with rfl | hr2
    · decide
    · rcases List.mem_cons.mp hr2 with rfl | h3
      · decide
      · cases h3
  exact ⟨hproof, fail_flag_carries_across_cycles _ hproof⟩

theorem blink_count_eq_streak_starts_witness :
    (scanEvents readerHeadFail).countP isBlink =
      streakStarts false (oksOf readerHeadFail scanPairs) :=
  blink_count_eq_streak_starts readerHeadFail

theorem start_twice_replaces_slot_witness :
    (start_thread [] false { slot := none, started := [] } 3).2.bind
        (fun st1 => (start_thread [] false st1 4).2) =
      some { slot := some 4, started := [3, 4] } := by
  simpa using start_twice_replaces_slot { slot := none, started := [] } 3 4

theorem handle_data_folds_nordics_once_witness :
    (handle_data [196, 0, 105]).length = 1 ∧
      (handle_data [196, 0, 105]).map DisplayCall.text =
        [(convert_hex_to_ASCII_string [196, 0, 105]).map nordic_fold_spec] :=
  handle_data_folds_nordics_once [196, 0, 105]

theorem convert_hex_drops_zeros_witness :
    convert_hex_to_ASCII_string [72, 0, 105] =
        (([72, 0, 105] : List Nat).filter (fun v => v != 0)).map Char.ofNat ∧
      (convert_hex_to_ASCII_string [72, 0, 105]).length =
        ([72, 0, 105] : List Nat).countP (fun v => v != 0) :=
  convert_hex_drops_zeros [72, 0, 105]
